import Mathlib

/-!
Verification of the Dox2 PDF reader core, shallowly embedded from
`src/Dox2/src/pdf_reader.py` and `src/Dox2/src/utils.py`:

* the continuous layout engine (`PDFReader.render_current_page`),
* the viewport tracker (`PDFReader._update_page_indicator`),
* page-anchored scrolling (`PDFReader._on_page_input_enter`),
* the zoom controller (`PDFReader._on_zoom_input_enter`, `_zoom_in`, `_zoom_out`),
* the password-retry flow (`PDFReader._try_open_with_password`,
  `_close_tab_on_password_failure`),
* the page-render fallback chain (`utils.render_page_with_fallback`),
* the per-page link index (`PDFReader._extract_links_for_page`, `load_pdf`).

External collaborators (PyMuPDF pixmap rendering, link extraction, the
tkinter scroll model) enter the embedding as explicit oracle parameters.
Pixel dimensions are natural numbers; scroll fractions and zoom factors,
floats in the source, are embedded as rationals.
-/

namespace Dox2

/-- A decoded page bitmap; `width`/`height` are the pixel dimensions
reported by `img.size` in `render_current_page`. -/
structure Img where
  width : Nat
  height : Nat
  deriving DecidableEq, Repr

/-- The per-pass state of the layout loop in `PDFReader.render_current_page`
(pdf_reader.py lines 556–608): `pagePositions` is `self.page_positions` as an
association list in pass order, `yPosition` is the loop variable `y_position`
(initialised to the fixed 10 px top margin), `totalHeight` is `total_height`
(initialised to 0, set to `y_position` after each successful render), and
`imgWidth` is the loop variable `img_width` (last assigned image width,
0 before any assignment). -/
structure LayoutState where
  pagePositions : List (Nat × Nat)
  yPosition : Nat
  totalHeight : Nat
  imgWidth : Nat
  deriving DecidableEq, Repr

/-- One iteration of the `for page_num in pages_to_render` loop of
`render_current_page`: a failed render (`img is None`) leaves the state
unchanged (`continue`); a successful render records the page at the current
`y_position`, then advances `y_position += img_height + 30` and sets
`total_height = y_position` and `img_width` to the page's width. -/
def layoutStep (render : Nat → Option Img) (s : LayoutState) (pageNum : Nat) :
    LayoutState :=
  match render pageNum with
  | none => s
  | some img =>
    { pagePositions := s.pagePositions ++ [(pageNum, s.yPosition)]
      yPosition := s.yPosition + img.height + 30
      totalHeight := s.yPosition + img.height + 30
      imgWidth := img.width }

/-- A full layout pass over pages `0 .. totalPages - 1`, starting from the
cleared caches (`self.page_images.clear()`, `self.page_positions.clear()`)
and `y_position = 10`. `render` gives the outcome of
`render_page_with_fallback` for each page index at the current zoom. -/
def layoutPass (render : Nat → Option Img) (totalPages : Nat) : LayoutState :=
  (List.range totalPages).foldl (layoutStep render) ⟨[], 10, 0, 0⟩

/-- `canvas_width` substitution in `render_current_page` lines 552–554:
a measured width below 2 is replaced by 800. -/
def effCanvasWidth (w : Nat) : Nat := if w < 2 then 800 else w

/-- The scroll-region width set at line 607:
`scroll_width = max(img_width, canvas_width)` where `img_width` is the loop
variable holding the width of the **last** successfully rendered page. -/
def scrollWidth (s : LayoutState) (canvasWidth : Nat) : Nat :=
  max s.imgWidth (effCanvasWidth canvasWidth)

/-- Height-plus-gap contribution of page `k` to the running `y_position`:
`img_height + 30` when it renders, `0` when the page is skipped. -/
def pageContrib (render : Nat → Option Img) (k : Nat) : Nat :=
  match render k with
  | none => 0
  | some img => img.height + 30

/-- Closed form of the running `y_position` immediately before page `p` is
laid out: the 10 px top margin plus the contributions of all earlier pages. -/
def offsetOf (render : Nat → Option Img) (p : Nat) : Nat :=
  10 + ((List.range p).map (pageContrib render)).sum

/-- Width of the last successfully rendered page among `0 .. n-1`; `0` when
no page rendered (the initial value of the loop variable `img_width`). -/
def lastImgWidth (render : Nat → Option Img) : Nat → Nat
  | 0 => 0
  | n + 1 =>
    match render n with
    | some img => img.width
    | none => lastImgWidth render n

lemma offsetOf_succ (render : Nat → Option Img) (p : Nat) :
    offsetOf render (p + 1) = offsetOf render p + pageContrib render p := by
  simp [offsetOf, List.range_succ, Nat.add_assoc]

lemma layoutPass_succ (render : Nat → Option Img) (n : Nat) :
    layoutPass render (n + 1) = layoutStep render (layoutPass render n) n := by
  simp [layoutPass, List.range_succ]

lemma layoutPass_yPosition (render : Nat → Option Img) (N : Nat) :
    (layoutPass render N).yPosition = offsetOf render N := by
  induction N with
  | zero => simp [layoutPass, offsetOf]
  | succ n ih =>
    rw [layoutPass_succ, offsetOf_succ, ← ih]
    cases h : render n <;> simp [layoutStep, h, pageContrib, Nat.add_assoc]

lemma layoutPass_pagePositions (render : Nat → Option Img) (N : Nat) :
    (layoutPass render N).pagePositions =
      (List.range N).filterMap
        (fun p => (render p).map (fun _ => (p, offsetOf render p))) := by
  induction N with
  | zero => simp [layoutPass]
  | succ n ih =>
    rw [layoutPass_succ, List.range_succ, List.filterMap_append]
    cases h : render n <;>
      simp [layoutStep, h, ih, layoutPass_yPosition]

lemma layoutPass_totalHeight (render : Nat → Option Img) (N : Nat) :
    (layoutPass render N).totalHeight =
      if (layoutPass render N).pagePositions = [] then 0
      else offsetOf render N := by
  induction N with
  | zero => simp [layoutPass, offsetOf]
  | succ n ih =>
    rw [layoutPass_succ]
    cases h : render n with
    | none =>
      simp only [layoutStep, h]
      rw [ih, offsetOf_succ]
      simp [pageContrib, h]
    | some img =>
      simp [layoutStep, h, offsetOf_succ, pageContrib,
        layoutPass_yPosition, Nat.add_assoc]

lemma layoutPass_imgWidth (render : Nat → Option Img) (N : Nat) :
    (layoutPass render N).imgWidth = lastImgWidth render N := by
  induction N with
  | zero => simp [layoutPass, lastImgWidth]
  | succ n ih =>
    rw [layoutPass_succ]
    cases h : render n <;> simp [layoutStep, h, lastImgWidth, ih]

lemma mem_pagePositions (render : Nat → Option Img) (N p y : Nat) :
    (p, y) ∈ (layoutPass render N).pagePositions ↔
      p < N ∧ (render p).isSome ∧ y = offsetOf render p := by
  rw [layoutPass_pagePositions]
  simp only [List.mem_filterMap, List.mem_range, Option.map_eq_some']
  constructor
  · rintro ⟨a, ha, img, himg, heq⟩
    obtain ⟨rfl, rfl⟩ : a = p ∧ offsetOf render a = y := by
      constructor <;> [exact congrArg Prod.fst heq; exact congrArg Prod.snd heq]
    exact ⟨ha, by simp [himg], rfl⟩
  · rintro ⟨hp, hs, rfl⟩
    obtain ⟨img, himg⟩ := Option.isSome_iff_exists.mp hs
    exact ⟨p, hp, img, himg, rfl⟩

lemma offsetOf_mono (render : Nat → Option Img) {p q : Nat} (h : p ≤ q) :
    offsetOf render p ≤ offsetOf render q := by
  induction q, h using Nat.le_induction with
  | base => exact le_refl _
  | succ n hn ih =>
    rw [offsetOf_succ]
    exact le_trans ih (Nat.le_add_right _ _)

lemma offsetOf_add_le (render : Nat → Option Img) {p q : Nat} (h : p < q)
    (img : Img) (hr : render p = some img) :
    offsetOf render p + img.height + 30 ≤ offsetOf render q := by
  have h1 : offsetOf render (p + 1) = offsetOf render p + (img.height + 30) := by
    rw [offsetOf_succ]
    simp [pageContrib, hr]
  calc offsetOf render p + img.height + 30
      = offsetOf render (p + 1) := by rw [h1]; ring
    _ ≤ offsetOf render q := offsetOf_mono render h

lemma offsetOf_lt_of_rendered (render : Nat → Option Img) {p q : Nat} (h : p < q)
    (img : Img) (hr : render p = some img) :
    offsetOf render p < offsetOf render q :=
  lt_of_lt_of_le (by omega) (offsetOf_add_le render h img hr)

lemma offsetOf_of_gap (render : Nat → Option Img) {i j : Nat} (hij : i < j)
    (img : Img) (hi : render i = some img)
    (hgap : ∀ k, i < k → k < j → render k = none) :
    offsetOf render j = offsetOf render i + img.height + 30 := by
  induction j, hij using Nat.le_induction with
  | base =>
    rw [offsetOf_succ]
    simp [pageContrib, hi]
    ring
  | succ n hn ih =>
    rw [offsetOf_succ]
    have hnone : render n = none := hgap n (by omega) (by omega)
    rw [ih (fun k hk1 hk2 => hgap k hk1 (by omega))]
    simp [pageContrib, hnone]

lemma pagePositions_pairwise (render : Nat → Option Img) (N : Nat) :
    (layoutPass render N).pagePositions.Pairwise
      (fun a b => a.1 < b.1 ∧ a.2 < b.2) := by
  induction N with
  | zero => simp [layoutPass]
  | succ n ih =>
    rw [layoutPass_succ]
    cases h : render n with
    | none => simpa [layoutStep, h] using ih
    | some img =>
      simp only [layoutStep, h, List.pairwise_append]
      refine ⟨ih, by simp, ?_⟩
      rintro ⟨p, y⟩ hmem b hb
      rw [List.mem_singleton] at hb
      subst hb
      obtain ⟨hp, hs, rfl⟩ := (mem_pagePositions render n p y).mp hmem
      obtain ⟨imgp, himgp⟩ := Option.isSome_iff_exists.mp hs
      rw [layoutPass_yPosition]
      exact ⟨hp, offsetOf_lt_of_rendered render hp imgp himgp⟩

/-- The view centre computed in `_update_page_indicator` lines 888–891:
`view_start = top * total_height`, `view_end = bot * total_height`,
`view_center = (view_start + view_end) / 2`. -/
def viewCenter (top bot totalHeight : ℚ) : ℚ :=
  (top * totalHeight + bot * totalHeight) / 2

/-- The `for page_num in sorted(self.page_positions.keys())` loop of
`_update_page_indicator` lines 894–899: `current_page` starts at 0, is set to
each page whose recorded offset is `≤ view_center`, and the loop breaks at
the first page whose offset exceeds it. -/
def indicatorLoop (c : ℚ) : List (Nat × Nat) → Nat → Nat
  | [], cur => cur
  | e :: rest, cur => if (e.2 : ℚ) ≤ c then indicatorLoop c rest e.1 else cur

/-- The page index reported by `_update_page_indicator` for a viewport
`(top, bot)` (the two fractions of `canvas.yview()`) against the recorded
page positions (already in increasing page order, as the layout pass
produces them and as `sorted(...)` re-establishes). -/
def pageAtViewport (positions : List (Nat × Nat)) (top bot totalHeight : ℚ) :
    Nat :=
  indicatorLoop (viewCenter top bot totalHeight) positions 0

/-- The specification the viewport tracker is claimed to satisfy: the
reported page is the highest-indexed page whose recorded offset is at most
the view centre, and page 0 when no recorded offset is. -/
def IsActivePage (positions : List (Nat × Nat)) (c : ℚ) (p : Nat) : Prop :=
  ((∃ e ∈ positions, e.1 = p ∧ (e.2 : ℚ) ≤ c) ∧
    ∀ e ∈ positions, (e.2 : ℚ) ≤ c → e.1 ≤ p) ∨
  ((∀ e ∈ positions, ¬ (e.2 : ℚ) ≤ c) ∧ p = 0)

lemma indicatorLoop_spec (c : ℚ) (l : List (Nat × Nat)) (cur : Nat)
    (hsort : l.Pairwise (fun a b => a.1 < b.1 ∧ a.2 < b.2)) :
    ((∀ e ∈ l, ¬ (e.2 : ℚ) ≤ c) ∧ indicatorLoop c l cur = cur) ∨
    (∃ e ∈ l, (e.2 : ℚ) ≤ c ∧ indicatorLoop c l cur = e.1 ∧
      ∀ e' ∈ l, (e'.2 : ℚ) ≤ c → e'.1 ≤ e.1) := by
  induction l generalizing cur with
  | nil => exact Or.inl ⟨by simp, rfl⟩
  | cons a rest ih =>
    rw [List.pairwise_cons] at hsort
    by_cases hle : (a.2 : ℚ) ≤ c
    · right
      rcases ih a.1 hsort.2 with ⟨hnone, hval⟩ | ⟨e, he, hec, hval, hmax⟩
      · refine ⟨a, List.mem_cons_self a rest, hle, ?_, ?_⟩
        · simpa [indicatorLoop, hle] using hval
        · intro e' he' hc'
          rcases List.mem_cons.mp he' with rfl | he'
          · exact le_refl _
          · exact absurd hc' (hnone e' he')
      · refine ⟨e, List.mem_cons_of_mem a he, hec, ?_, ?_⟩
        · simpa [indicatorLoop, hle] using hval
        · intro e' he' hc'
          rcases List.mem_cons.mp he' with rfl | he'
          · exact le_of_lt (hsort.1 e he).1
          · exact hmax e' he' hc'
    · left
      refine ⟨?_, by simp [indicatorLoop, hle]⟩
      intro e he
      rcases List.mem_cons.mp he with rfl | he
      · exact hle
      · intro habs
        exact hle (le_trans (le_of_lt (by exact_mod_cast (hsort.1 e he).2)) habs)

/-- The scroll performed by `_on_page_input_enter` lines 712–724 once the
target page index `p` (0-based) has been selected: if `p` is recorded in
`page_positions` and `total_height > canvas_height and canvas_height > 0`,
the fraction `y_pos / total_height` is passed to `canvas.yview_moveto`;
otherwise no scroll occurs. -/
def scrollToPageFraction (positions : List (Nat × Nat))
    (totalHeight canvasHeight : Nat) (p : Nat) : Option ℚ :=
  match positions.lookup p with
  | none => none
  | some y =>
    if canvasHeight < totalHeight ∧ 0 < canvasHeight then
      some ((y : ℚ) / (totalHeight : ℚ))
    else none

/-- tkinter `canvas.yview_moveto(f)` followed by `canvas.yview()` (external
collaborator): the top fraction is clamped so the visible window, a
`winFrac` fraction of the scroll region, stays inside it; `yview()` then
reports `(top, top + winFrac)`. -/
def yviewAfterMoveto (f winFrac : ℚ) : ℚ × ℚ :=
  (max 0 (min f (1 - winFrac)), max 0 (min f (1 - winFrac)) + winFrac)

/-- `self.min_zoom = 0.5` (pdf_reader.py line 38). -/
def min_zoom : ℚ := mkRat 1 2

/-- `self.max_zoom` (pdf_reader.py line 39). -/
def max_zoom : ℚ := 3

/-- The zoom applied by `_on_zoom_input_enter` (lines 651–663) to an integer
percentage read from the zoom field: clamp to 50–300, then divide by 100. -/
def zoomFromInput (zoomValue : ℤ) : ℚ :=
  let v : ℤ := if zoomValue < 50 then 50 else if zoomValue > 300 then 300 else zoomValue
  (v : ℚ) / 100

/-- `_zoom_in` (lines 768–772): when below `max_zoom`, step up by 0.2 and
clamp at `max_zoom`; otherwise leave the zoom unchanged. -/
def zoom_in (z : ℚ) : ℚ :=
  if z < max_zoom then min (z + 2 / 10) max_zoom else z

/-- `_zoom_out` (lines 774–778): when above `min_zoom`, step down by 0.2 and
clamp at `min_zoom`; otherwise leave the zoom unchanged. -/
def zoom_out (z : ℚ) : ℚ :=
  if min_zoom < z then max (z - 2 / 10) min_zoom else z

/-- The password-retry session: `pending_filepath` (the file awaiting a
password; `some` exactly while the session is in the awaiting-password
state), `password_attempt_count`, and whether the hosting tab is still open
(`_close_tab_on_password_failure` closes it). -/
structure AuthSession where
  pendingFilepath : Option String
  passwordAttemptCount : Nat
  tabOpen : Bool
  deriving DecidableEq, Repr

/-- `self.max_password_attempts` (pdf_reader.py line 55). -/
def maxPasswordAttempts : Nat := 20

/-- The failure branch of `_try_open_with_password` (lines 379–389) for an
incorrect passphrase: a no-op without a pending file (line 315); otherwise
`password_attempt_count += 1`, and at `>= max_password_attempts` the session
is torn down by `_close_tab_on_password_failure` (lines 410–431: pending
file discarded, counter reset, tab closed); below the bound the session
keeps awaiting a password. -/
def submitWrongPassword (s : AuthSession) : AuthSession :=
  match s.pendingFilepath with
  | none => s
  | some _ =>
    let n := s.passwordAttemptCount + 1
    if maxPasswordAttempts ≤ n then
      { pendingFilepath := none, passwordAttemptCount := 0, tabOpen := false }
    else
      { s with passwordAttemptCount := n }

/-- `k` successive incorrect passphrase submissions. -/
def submitWrongN : Nat → AuthSession → AuthSession
  | 0, s => s
  | k + 1, s => submitWrongN k (submitWrongPassword s)

/-- `remaining = self.max_password_attempts - self.password_attempt_count`
(line 387). -/
def remainingAttempts (s : AuthSession) : Nat :=
  maxPasswordAttempts - s.passwordAttemptCount

/-- The error message built at line 388. -/
def incorrectPasswordMessage (s : AuthSession) : String :=
  "Incorrect password (" ++ toString (remainingAttempts s) ++ " attempts remaining)"

/-- The argument triple of one `page.get_pixmap(...)` call in
`utils.render_page_with_fallback`: the matrix scale (`fitz.Matrix(m, m)`),
whether `colorspace=fitz.csRGB` is passed explicitly, and the `alpha`
argument (`none` when the default is used). -/
structure PixmapCall where
  mat : ℚ
  csRGB : Bool
  alpha : Option Bool
  deriving DecidableEq, Repr

/-- A raw link dictionary as returned by `page.get_links()`:
`linkType` is `link['type']`, `uri` is `link['uri']`, `page` is
`link.get('page', 0)`, `rect` is `link['from']` as `(x0, y0, x1, y1)`. -/
structure RawLink where
  linkType : String
  uri : String
  page : Nat
  rect : ℚ × ℚ × ℚ × ℚ
  deriving DecidableEq, Repr

/-- An opaque PyMuPDF document handle: its page count, the raw links each
page reports, and the exception text `str(e)` raised when a page index
cannot be accessed. -/
structure PdfDoc where
  pageCount : Nat
  rawLinks : Nat → List RawLink
  accessError : Nat → String

/-- The four rendering strategies of `utils.render_page_with_fallback`
(lines 27–63), in source order, each with its `get_pixmap` arguments and the
method-name string the function returns on that strategy's success:
method 1 renders full-colour at doubled resolution
(`fitz.Matrix(zoom_factor * 2, ...)`, `colorspace=fitz.csRGB`,
`alpha=False`); method 2 full-colour at standard resolution; method 3
full-colour with an alpha channel; method 4 falls back to the default
colourspace (labelled grayscale by the source). -/
def renderMethods (z : ℚ) : List (PixmapCall × String) :=
  [(⟨z * 2, true, some false⟩, "method 1 (RGB high DPI)"),
   (⟨z, true, none⟩, "method 2 (RGB alternative)"),
   (⟨z, true, some true⟩, "method 3 (RGB with alpha)"),
   (⟨z, false, none⟩, "method 4 (grayscale fallback)")]

/-- The fallback loop of `render_page_with_fallback`: each strategy is
attempted through the oracle `gp` (the outcome of `page.get_pixmap` plus the
`pix.samples` check and `Image.open`; `none` when the attempt raised or
produced empty samples). The first success is returned with its method
name; each failure silently proceeds to the next strategy; when every
strategy has failed the function reports
`(None, "error: unable to render page")`. The second component records the
calls attempted, in order. -/
def tryMethods (gp : PixmapCall → Option Img) :
    List (PixmapCall × String) → (Option Img × String) × List PixmapCall
  | [] => ((none, "error: unable to render page"), [])
  | m :: rest =>
    match gp m.1 with
    | some img => ((some img, m.2), [m.1])
    | none =>
      let r := tryMethods gp rest
      (r.1, m.1 :: r.2)

/-- `utils.render_page_with_fallback(doc, page_num, zoom_factor)`
(lines 12–68): the outer `try` accesses `doc[page_num]` — when the index is
out of range the access raises and the outer handler returns
`(None, "error: " + str(e))` without attempting any strategy — and
otherwise runs the four-strategy fallback chain. The second component is
the trace of attempted `get_pixmap` calls. -/
def render_page_with_fallback (doc : PdfDoc) (pageNum : Nat) (z : ℚ)
    (gp : PixmapCall → Option Img) : (Option Img × String) × List PixmapCall :=
  if pageNum < doc.pageCount then tryMethods gp (renderMethods z)
  else ((none, "error: " ++ doc.accessError pageNum), [])

/-- An entry of `self.links_on_page[page_num]` after processing in
`_extract_links_for_page` lines 242–254: external links keep the URI,
internal links keep the target page; both keep the source rectangle. -/
inductive PageLink where
  | external (uri : String) (rect : ℚ × ℚ × ℚ × ℚ)
  | internal (page : Nat) (rect : ℚ × ℚ × ℚ × ℚ)
  deriving DecidableEq, Repr

/-- The `for link in page.get_links()` loop of `_extract_links_for_page`:
`'uri'` links become external entries, `'goto'` links internal entries, and
any other type is ignored. -/
def processLinks : List RawLink → List PageLink
  | [] => []
  | l :: rest =>
    if l.linkType = "uri" then .external l.uri l.rect :: processLinks rest
    else if l.linkType = "goto" then .internal l.page l.rect :: processLinks rest
    else processLinks rest

/-- The reader state relevant to the link index: the open document,
`self.total_pages`, and `self.links_on_page` as an association list. -/
structure ReaderLinkState where
  doc : Option PdfDoc
  totalPages : Nat
  linksOnPage : List (Nat × List PageLink)

/-- `_extract_links_for_page(page_num)` (lines 228–256): a no-op without a
document or for an out-of-range page; a no-op when the page already has an
entry (`return  # Already extracted`); otherwise the page's links are
extracted from the current document and recorded. -/
def extract_links_for_page (st : ReaderLinkState) (p : Nat) : ReaderLinkState :=
  match st.doc with
  | none => st
  | some d =>
    if st.totalPages ≤ p then st
    else if (st.linksOnPage.lookup p).isSome then st
    else { st with linksOnPage := st.linksOnPage ++ [(p, processLinks (d.rawLinks p))] }

/-- The link-extraction prelude of `render_current_page` (lines 538–540):
`_extract_links_for_page` is invoked for every page of the document. -/
def extractAllLinks (st : ReaderLinkState) : ReaderLinkState :=
  (List.range st.totalPages).foldl extract_links_for_page st

/-- The link-relevant effect of a successful `load_pdf` (lines 480–494): the
new document is installed and `total_pages` updated; `page_images`,
`page_positions` and the photo references are cleared, but — mirroring the
source — `self.links_on_page` is **not** cleared. -/
def load_pdf_links (st : ReaderLinkState) (d : PdfDoc) : ReaderLinkState :=
  { st with doc := some d, totalPages := d.pageCount }

/-- The property claim C1 asserts of a full layout pass: offset 10 for
page 0 when it renders, the `height + 30` recurrence between consecutively
rendered pages, and strictly increasing offsets. -/
def LayoutOffsetSpec (render : Nat → Option Img) (N : Nat) : Prop :=
  ((render 0).isSome → (0, 10) ∈ (layoutPass render N).pagePositions) ∧
  (∀ i j yi yj imgi, (i, yi) ∈ (layoutPass render N).pagePositions →
    (j, yj) ∈ (layoutPass render N).pagePositions →
    render i = some imgi → i < j →
    (∀ k, i < k → k < j → render k = none) →
    yj = yi + imgi.height + 30) ∧
  (∀ i j yi yj, (i, yi) ∈ (layoutPass render N).pagePositions →
    (j, yj) ∈ (layoutPass render N).pagePositions → i < j → yi < yj)

/-- Claim C1: in every full layout pass over a document with at least one
page, if page 0 renders successfully its recorded offset is 10 (the fixed
top margin); for consecutively rendered pages `i < j` (no successful render
between them) the recorded offsets satisfy
`offset j = offset i + height i + 30`; and recorded offsets are strictly
increasing with page index. -/
theorem C1_layout_offsets (render : Nat → Option Img) (N : Nat) (hN : 0 < N) :
    LayoutOffsetSpec render N := by
  refine ⟨?_, ?_, ?_⟩
  · intro h0
    rw [mem_pagePositions]
    exact ⟨hN, h0, by simp [offsetOf]⟩
  · intro i j yi yj imgi hi hj hri hij hgap
    obtain ⟨-, -, rfl⟩ := (mem_pagePositions render N i yi).mp hi
    obtain ⟨-, -, rfl⟩ := (mem_pagePositions render N j yj).mp hj
    exact offsetOf_of_gap render hij imgi hri hgap
  · intro i j yi yj hi hj hij
    obtain ⟨-, hsi, rfl⟩ := (mem_pagePositions render N i yi).mp hi
    obtain ⟨-, -, rfl⟩ := (mem_pagePositions render N j yj).mp hj
    obtain ⟨imgi, hri⟩ := Option.isSome_iff_exists.mp hsi
    exact offsetOf_lt_of_rendered render hij imgi hri

/-- Witness for C1 at a concrete two-page document whose pages both render
as 100×50 bitmaps. -/
theorem C1_layout_offsets_witness :
    0 < 2 ∧ LayoutOffsetSpec (fun n => if n < 2 then some ⟨100, 50⟩ else none) 2 :=
  ⟨by decide, C1_layout_offsets (fun n => if n < 2 then some ⟨100, 50⟩ else none) 2
    (by decide)⟩

/-- The property claim C9 asserts when page `k` fails to render: no layout
entry for `k`, no advance of the running y-position on account of `k`, and
every other successfully rendered page of the pass still gets an entry (the
pass continues past the failure; the pass itself is a total function, so the
failure never escapes the layout engine). -/
def SkipFailedPageSpec (render : Nat → Option Img) (N k : Nat) : Prop :=
  (∀ y, (k, y) ∉ (layoutPass render N).pagePositions) ∧
  offsetOf render (k + 1) = offsetOf render k ∧
  (∀ q, q < N → (render q).isSome →
    (q, offsetOf render q) ∈ (layoutPass render N).pagePositions)

/-- Claim C9: a page whose render fails is skipped — it gets no layout
entry and contributes neither height nor gap to the running vertical
position — while the pass continues with every other page index, and the
failure never aborts the pass. -/
theorem C9_skip_failed_page (render : Nat → Option Img) (N k : Nat)
    (hk : render k = none) : SkipFailedPageSpec render N k := by
  refine ⟨?_, ?_, ?_⟩
  · intro y hmem
    obtain ⟨-, hs, -⟩ := (mem_pagePositions render N k y).mp hmem
    simp [hk] at hs
  · rw [offsetOf_succ]
    simp [pageContrib, hk]
  · intro q hq hs
    exact (mem_pagePositions render N q _).mpr ⟨hq, hs, rfl⟩

/-- Witness for C9 at a concrete three-page document whose middle page
fails to render. -/
theorem C9_skip_failed_page_witness :
    (fun n => if n = 1 then none else some (⟨100, 50⟩ : Img)) 1 = none ∧
    SkipFailedPageSpec (fun n => if n = 1 then none else some ⟨100, 50⟩) 3 1 :=
  ⟨by decide, C9_skip_failed_page (fun n => if n = 1 then none else some ⟨100, 50⟩) 3 1
    (by decide)⟩

/-- Concrete layout input refuting claim C6: two pages render, widths 500
then 300, with a 400 px wide viewport. -/
def renderC6 : Nat → Option Img := fun n =>
  if n = 0 then some ⟨500, 100⟩ else if n = 1 then some ⟨300, 100⟩ else none

/-- Counterexample to claim C6 as stated: in the two-page layout pass of
`renderC6` page 0 renders with width 500, yet the computed scroll width is
`max(last rendered width 300, canvas width 400) = 400`, which is smaller
than a rendered page's width — so the scroll width is not the maximum over
all rendered pages. -/
theorem C6_counterexample :
    (0, 10) ∈ (layoutPass renderC6 2).pagePositions ∧
    renderC6 0 = some ⟨500, 100⟩ ∧
    scrollWidth (layoutPass renderC6 2) 400 = 400 ∧
    scrollWidth (layoutPass renderC6 2) 400 < 500 := by
  decide

lemma lastImgWidth_eq_zero (render : Nat → Option Img) (N : Nat)
    (h : ∀ k, k < N → render k = none) : lastImgWidth render N = 0 := by
  induction N with
  | zero => rfl
  | succ n ih =>
    have hn : render n = none := h n (by omega)
    simp only [lastImgWidth, hn]
    exact ih fun k hk => h k (by omega)

/-- Claim C6 as amended: after a full layout pass the scroll width is the
maximum of the width of the **last** successfully rendered page (0 when no
page rendered) and the effective viewport width (800 substituted when the
measured width is below 2); consequently it is never smaller than the last
rendered page's width, and it falls back to the effective viewport width
when no page rendered. -/
theorem C6_amended_scroll_width (render : Nat → Option Img) (N canvasWidth : Nat) :
    scrollWidth (layoutPass render N) canvasWidth
      = max (lastImgWidth render N) (effCanvasWidth canvasWidth) ∧
    lastImgWidth render N ≤ scrollWidth (layoutPass render N) canvasWidth ∧
    ((∀ k, k < N → render k = none) →
      scrollWidth (layoutPass render N) canvasWidth = effCanvasWidth canvasWidth) := by
  refine ⟨?_, ?_, ?_⟩
  · rw [scrollWidth, layoutPass_imgWidth]
  · rw [scrollWidth, layoutPass_imgWidth]
    exact le_max_left _ _
  · intro h
    rw [scrollWidth, layoutPass_imgWidth, lastImgWidth_eq_zero render N h]
    simp

/-- Witness for the amended C6 at a concrete input where no page renders
and the viewport is 640 px wide. -/
theorem C6_amended_scroll_width_witness :
    ((∀ k, k < 2 → (fun _ : Nat => (none : Option Img)) k = none) ∧
      scrollWidth (layoutPass (fun _ => none) 2) 640
        = max (lastImgWidth (fun _ => none) 2) (effCanvasWidth 640)) ∧
    scrollWidth (layoutPass (fun _ => none) 2) 640 = effCanvasWidth 640 :=
  ⟨⟨fun _ _ => rfl, (C6_amended_scroll_width (fun _ => none) 2 640).1⟩,
    (C6_amended_scroll_width (fun _ => none) 2 640).2.2 fun _ _ => rfl⟩

/-- The property claim C2 asserts of the viewport tracker against the
positions of a layout pass: the view centre is
`((top + bot) / 2) * total_height`, and the reported page is the
highest-indexed page whose recorded offset is at most the view centre
(page 0 when there is none). -/
def ViewportTrackerSpec (render : Nat → Option Img) (N : Nat) (top bot : ℚ) :
    Prop :=
  viewCenter top bot ((layoutPass render N).totalHeight : ℚ) =
      (top + bot) / 2 * ((layoutPass render N).totalHeight : ℚ) ∧
  IsActivePage (layoutPass render N).pagePositions
    (viewCenter top bot ((layoutPass render N).totalHeight : ℚ))
    (pageAtViewport (layoutPass render N).pagePositions top bot
      ((layoutPass render N).totalHeight : ℚ))

/-- Claim C2: for every layout pass with at least one recorded page offset
and every scroll position `(top, bot)`, the tracker computes
`view_center = ((top + bot) / 2) * total_height` and reports the
highest-indexed page whose recorded offset is `≤ view_center`, or page 0
when no recorded offset is. -/
theorem C2_viewport_tracker (render : Nat → Option Img) (N : Nat) (top bot : ℚ)
    (_hne : (layoutPass render N).pagePositions ≠ []) :
    ViewportTrackerSpec render N top bot := by
  constructor
  · rw [viewCenter]
    ring
  · rcases indicatorLoop_spec (viewCenter top bot ((layoutPass render N).totalHeight : ℚ))
        (layoutPass render N).pagePositions 0 (pagePositions_pairwise render N) with
      ⟨hnone, hval⟩ | ⟨e, he, hec, hval, hmax⟩
    · exact Or.inr ⟨hnone, hval⟩
    · exact Or.inl ⟨⟨e, he, (by rw [pageAtViewport, hval]), hec⟩,
        fun e' he' hc' => by rw [pageAtViewport, hval]; exact hmax e' he' hc'⟩

/-- Witness for C2 at a concrete one-page layout viewed with the whole
canvas visible. -/
theorem C2_viewport_tracker_witness :
    (layoutPass (fun _ => some ⟨100, 50⟩) 1).pagePositions ≠ [] ∧
    ViewportTrackerSpec (fun _ => some ⟨100, 50⟩) 1 0 1 :=
  ⟨by decide, C2_viewport_tracker (fun _ => some ⟨100, 50⟩) 1 0 1 (by decide)⟩

/-- The property claim C8 asserts of the zoom controller: zoom entries are
clamped into `[min_zoom, max_zoom]` (nearest bound for out-of-range
requests), and the buttons step by exactly 0.2 and clamp, holding at a
bound without wrapping. -/
def ZoomSpec (z : ℤ) (q : ℚ) : Prop :=
  zoomFromInput z = max min_zoom (min max_zoom ((z : ℚ) / 100)) ∧
  zoom_in q = min (q + 2 / 10) max_zoom ∧
  zoom_out q = max (q - 2 / 10) min_zoom ∧
  min_zoom ≤ zoom_in q ∧ zoom_in q ≤ max_zoom ∧
  min_zoom ≤ zoom_out q ∧ zoom_out q ≤ max_zoom ∧
  zoom_in max_zoom = max_zoom ∧ zoom_out min_zoom = min_zoom

/-- Claim C8: a requested zoom value outside `[0.5, 3.0]` is clamped to the
nearest bound; `zoom_in`/`zoom_out` step the factor by exactly 0.2 and
clamp at the bounds, so stepping beyond a bound holds the zoom at that
bound and never wraps or errors. -/
lemma min_zoom_eq : min_zoom = 1 / 2 := by
  rw [min_zoom, Rat.mkRat_eq_div]
  norm_num

theorem C8_zoom_clamping (z : ℤ) (q : ℚ) (hq1 : min_zoom ≤ q)
    (hq2 : q ≤ max_zoom) : ZoomSpec z q := by
  have h20 : min_zoom ≤ max_zoom := by rw [min_zoom_eq, max_zoom]; norm_num
  have hin : zoom_in q = min (q + 2 / 10) max_zoom := by
    rw [zoom_in]
    split_ifs with h
    · rfl
    · have hq : q = max_zoom := le_antisymm hq2 (not_lt.mp h)
      subst hq
      rw [min_eq_right]
      linarith
  have hout : zoom_out q = max (q - 2 / 10) min_zoom := by
    rw [zoom_out]
    split_ifs with h
    · rfl
    · have hq : q = min_zoom := le_antisymm (not_lt.mp h) hq1
      subst hq
      rw [max_eq_right]
      linarith
  refine ⟨?_, hin, hout, ?_, ?_, ?_, ?_, ?_, ?_⟩
  · rw [zoomFromInput, min_zoom_eq, max_zoom]
    split_ifs with h1 h2
    · have : (z : ℚ) < 50 := by exact_mod_cast h1
      rw [min_eq_right (by linarith), max_eq_left (by linarith)]
      norm_num
    · have : (300 : ℚ) < (z : ℚ) := by exact_mod_cast h2
      rw [min_eq_left (by linarith), max_eq_right (by norm_num)]
      norm_num
    · have ha : (50 : ℚ) ≤ (z : ℚ) := by exact_mod_cast not_lt.mp h1
      have hb : (z : ℚ) ≤ 300 := by exact_mod_cast not_lt.mp h2
      rw [min_eq_right (by linarith), max_eq_right (by linarith)]
  · rw [hin]
    exact le_min (by rw [min_zoom_eq] at *; linarith) h20
  · rw [hin]
    exact min_le_right _ _
  · rw [hout]
    exact le_max_right _ _
  · rw [hout]
    exact max_le (by rw [max_zoom] at *; linarith) h20
  · rw [zoom_in]
    simp
  · rw [zoom_out]
    simp

/-- Witness for C8 at the out-of-range zoom request 500 % and a zoom factor
already at the upper bound. -/
theorem C8_zoom_clamping_witness :
    (min_zoom ≤ (3 : ℚ) ∧ (3 : ℚ) ≤ max_zoom) ∧ ZoomSpec 500 3 :=
  ⟨⟨by decide, by decide⟩, C8_zoom_clamping 500 3 (by decide) (by decide)⟩

lemma submitWrongN_add (a b : Nat) (s : AuthSession) :
    submitWrongN (a + b) s = submitWrongN b (submitWrongN a s) := by
  induction a generalizing s with
  | zero => simp [submitWrongN]
  | succ n ih =>
    have h : n + 1 + b = (n + b) + 1 := by omega
    rw [h]
    show submitWrongN (n + b) (submitWrongPassword s) = _
    rw [ih (submitWrongPassword s)]
    rfl

lemma submitWrongN_awaiting (f : String) :
    ∀ k n, n + k < maxPasswordAttempts →
      submitWrongN k ⟨some f, n, true⟩ = ⟨some f, n + k, true⟩ := by
  intro k
  induction k with
  | zero => intro n _; simp [submitWrongN]
  | succ m ih =>
    intro n h
    have hstep : submitWrongPassword ⟨some f, n, true⟩ = ⟨some f, n + 1, true⟩ := by
      simp only [submitWrongPassword]
      rw [if_neg]
      rw [maxPasswordAttempts] at h ⊢
      omega
    show submitWrongN m (submitWrongPassword ⟨some f, n, true⟩) = _
    rw [hstep, ih (n + 1) (by omega)]
    congr 1
    omega

/-- Claim C4: starting in the awaiting-password state with attempt counter
0 and the fixed bound of 20 attempts, 20 consecutive incorrect passphrase
submissions tear the session down (pending file discarded, counter reset,
tab closed), while 19 leave it awaiting a password with attempt counter 19
and exactly `max_attempts - attempt = 1` attempt remaining, reported in the
incorrect-password message. -/
theorem C4_password_exhaustion (f : String) :
    maxPasswordAttempts = 20 ∧
    submitWrongN 20 ⟨some f, 0, true⟩ = ⟨none, 0, false⟩ ∧
    submitWrongN 19 ⟨some f, 0, true⟩ = ⟨some f, 19, true⟩ ∧
    remainingAttempts (submitWrongN 19 ⟨some f, 0, true⟩) = 1 ∧
    incorrectPasswordMessage (submitWrongN 19 ⟨some f, 0, true⟩) =
      "Incorrect password (1 attempts remaining)" := by
  have h19 : submitWrongN 19 ⟨some f, 0, true⟩ = ⟨some f, 19, true⟩ := by
    have h := submitWrongN_awaiting f 19 0 (by rw [maxPasswordAttempts]; omega)
    simpa using h
  refine ⟨rfl, ?_, h19, ?_, ?_⟩
  · have hsplit : (20 : Nat) = 19 + 1 := rfl
    rw [hsplit, submitWrongN_add, h19]
    simp [submitWrongN, submitWrongPassword, maxPasswordAttempts]
  · rw [h19]
    rfl
  · rw [h19]
    have hmsg : incorrectPasswordMessage ⟨some f, 19, true⟩ =
        incorrectPasswordMessage ⟨none, 19, true⟩ := rfl
    rw [hmsg]
    decide

lemma tryMethods_trace_prefix (gp : PixmapCall → Option Img)
    (ms : List (PixmapCall × String)) :
    ∃ k, (tryMethods gp ms).2 = (ms.map Prod.fst).take k := by
  induction ms with
  | nil => exact ⟨0, rfl⟩
  | cons m rest ih =>
    cases h : gp m.1 with
    | some img => exact ⟨1, by simp [tryMethods, h]⟩
    | none =>
      obtain ⟨k, hk⟩ := ih
      exact ⟨k + 1, by simp [tryMethods, h, hk]⟩

lemma tryMethods_dropLast_fail (gp : PixmapCall → Option Img)
    (ms : List (PixmapCall × String)) :
    ∀ c ∈ (tryMethods gp ms).2.dropLast, gp c = none := by
  induction ms with
  | nil => simp [tryMethods]
  | cons m rest ih =>
    cases h : gp m.1 with
    | some img => simp [tryMethods, h]
    | none =>
      intro c hc
      simp only [tryMethods, h] at hc
      rcases hrest : (tryMethods gp rest).2 with _ | ⟨a, l⟩
      · rw [hrest] at hc
        simp at hc
      · rw [hrest] at hc
        rw [List.dropLast_cons₂] at hc
        rcases List.mem_cons.mp hc with rfl | hc'
        · exact h
        · exact ih c (by rw [hrest]; exact hc')

lemma tryMethods_none_iff (gp : PixmapCall → Option Img)
    (ms : List (PixmapCall × String)) :
    (tryMethods gp ms).1.1 = none ↔ ∀ c ∈ ms.map Prod.fst, gp c = none := by
  induction ms with
  | nil => simp [tryMethods]
  | cons m rest ih =>
    cases h : gp m.1 with
    | some img => simp [tryMethods, h]
    | none => simp [tryMethods, h, ih]

lemma tryMethods_none_eq (gp : PixmapCall → Option Img)
    (ms : List (PixmapCall × String)) (hn : (tryMethods gp ms).1.1 = none) :
    (tryMethods gp ms).1 = (none, "error: unable to render page") ∧
    (tryMethods gp ms).2 = ms.map Prod.fst := by
  induction ms with
  | nil => exact ⟨rfl, rfl⟩
  | cons m rest ih =>
    cases h : gp m.1 with
    | some img => simp [tryMethods, h] at hn
    | none =>
      simp only [tryMethods, h] at hn ⊢
      obtain ⟨h1, h2⟩ := ih hn
      simp [h1, h2]

lemma tryMethods_success (gp : PixmapCall → Option Img)
    (ms : List (PixmapCall × String)) (img : Img) (name : String)
    (hs : (tryMethods gp ms).1 = (some img, name)) :
    ∃ c, (tryMethods gp ms).2.getLast? = some c ∧ gp c = some img ∧
      (c, name) ∈ ms := by
  induction ms with
  | nil => simp [tryMethods] at hs
  | cons m rest ih =>
    cases h : gp m.1 with
    | some i =>
      simp only [tryMethods, h] at hs ⊢
      obtain ⟨h1, h2⟩ := Prod.mk.injEq .. ▸ hs
      refine ⟨m.1, by simp, ?_, ?_⟩
      · rw [h, h1]
      · rw [← h2]
        exact List.mem_cons_self m rest
    | none =>
      simp only [tryMethods, h] at hs ⊢
      obtain ⟨c, hc1, hc2, hc3⟩ := ih hs
      refine ⟨c, ?_, hc2, List.mem_cons_of_mem m hc3⟩
      rcases hrest : (tryMethods gp rest).2 with _ | ⟨a, l⟩
      · rw [hrest] at hc1
        simp at hc1
      · rw [hrest] at hc1
        rw [List.getLast?_cons_cons]
        exact hc1

/-- The property claim C5 asserts of the render fallback chain when the
page is accessible: the four strategies are, in order, full-colour
high-resolution, full-colour standard-resolution, full-colour with alpha,
and the grayscale-labelled last resort; the attempted calls form an
in-order prefix of that sequence; every attempted call before the last
failed silently; a render failure is reported exactly when all four
strategies fail (and then all four were attempted); and a success is the
first success, reported with that strategy's method name. -/
def RenderFallbackSpec (doc : PdfDoc) (pageNum : Nat) (z : ℚ)
    (gp : PixmapCall → Option Img) : Prop :=
  (renderMethods z).map Prod.fst =
      [⟨z * 2, true, some false⟩, ⟨z, true, none⟩, ⟨z, true, some true⟩,
        ⟨z, false, none⟩] ∧
  (∃ k, (render_page_with_fallback doc pageNum z gp).2 =
      ((renderMethods z).map Prod.fst).take k) ∧
  (∀ c ∈ (render_page_with_fallback doc pageNum z gp).2.dropLast, gp c = none) ∧
  ((render_page_with_fallback doc pageNum z gp).1.1 = none ↔
      ∀ c ∈ (renderMethods z).map Prod.fst, gp c = none) ∧
  ((render_page_with_fallback doc pageNum z gp).1.1 = none →
      (render_page_with_fallback doc pageNum z gp).2 = (renderMethods z).map Prod.fst) ∧
  (∀ img name, (render_page_with_fallback doc pageNum z gp).1 = (some img, name) →
      ∃ c, (render_page_with_fallback doc pageNum z gp).2.getLast? = some c ∧
        gp c = some img ∧ (c, name) ∈ renderMethods z)

/-- Claim C5: for every render request whose page is accessible, the
renderer attempts the four strategies in source order — (a) full-colour
high-resolution, (b) full-colour standard-resolution, (c) full-colour with
alpha, (d) the grayscale last resort — proceeding past each failure without
surfacing an error, returning the first success with its method name, and
reporting a render failure only when all four strategies fail. -/
theorem C5_render_fallback_chain (doc : PdfDoc) (pageNum : Nat) (z : ℚ)
    (gp : PixmapCall → Option Img) (h : pageNum < doc.pageCount) :
    RenderFallbackSpec doc pageNum z gp := by
  have hunfold : render_page_with_fallback doc pageNum z gp =
      tryMethods gp (renderMethods z) := by
    rw [render_page_with_fallback, if_pos h]
  refine ⟨rfl, ?_, ?_, ?_, ?_, ?_⟩
  · rw [hunfold]
    exact tryMethods_trace_prefix gp (renderMethods z)
  · rw [hunfold]
    exact tryMethods_dropLast_fail gp (renderMethods z)
  · rw [hunfold]
    exact tryMethods_none_iff gp (renderMethods z)
  · rw [hunfold]
    exact fun hn => (tryMethods_none_eq gp (renderMethods z) hn).2
  · rw [hunfold]
    exact fun img name hs => tryMethods_success gp (renderMethods z) img name hs

/-- Witness for C5: a one-page document whose renderer fails on the two
full-colour no-alpha strategies and succeeds on the alpha strategy. -/
theorem C5_render_fallback_chain_witness :
    0 < (PdfDoc.mk 1 (fun _ => []) (fun _ => "")).pageCount ∧
    RenderFallbackSpec (PdfDoc.mk 1 (fun _ => []) (fun _ => "")) 0 1
      (fun c => if c.alpha = some true then some ⟨8, 6⟩ else none) :=
  ⟨by decide,
    C5_render_fallback_chain (PdfDoc.mk 1 (fun _ => []) (fun _ => "")) 0 1
      (fun c => if c.alpha = some true then some ⟨8, 6⟩ else none) (by decide)⟩

/-- Claim C10: the renderer is total at its public interface — for every
document handle, every page index (in or out of range) and every zoom
factor, `render_page_with_fallback` returns a two-element result that is
either a bitmap paired with the name of the succeeding strategy, or `none`
paired with an error message; no exception escapes (every failure of the
page access or of a strategy is an explicit `none` outcome of the
oracles). -/
theorem C10_render_total (doc : PdfDoc) (pageNum : Nat) (z : ℚ)
    (gp : PixmapCall → Option Img) :
    (∃ img name, (render_page_with_fallback doc pageNum z gp).1 = (some img, name) ∧
      ∃ c, (c, name) ∈ renderMethods z ∧ gp c = some img) ∨
    (render_page_with_fallback doc pageNum z gp).1 =
      (none, "error: unable to render page") ∨
    (render_page_with_fallback doc pageNum z gp).1 =
      (none, "error: " ++ doc.accessError pageNum) := by
  rw [render_page_with_fallback]
  split_ifs with h
  · rcases hfst : (tryMethods gp (renderMethods z)).1.1 with _ | img
    · exact Or.inr (Or.inl (tryMethods_none_eq gp (renderMethods z) hfst).1)
    · left
      have hpair : (tryMethods gp (renderMethods z)).1 =
          (some img, (tryMethods gp (renderMethods z)).1.2) := by
        rw [← hfst]
      obtain ⟨c, -, hc2, hc3⟩ :=
        tryMethods_success gp (renderMethods z) img _ hpair
      exact ⟨img, _, hpair, c, hc3, hc2⟩
  · exact Or.inr (Or.inr rfl)

lemma lookup_eq_of_mem {l : List (Nat × Nat)}
    (hsort : l.Pairwise (fun a b => a.1 < b.1)) {p y : Nat}
    (hmem : (p, y) ∈ l) : l.lookup p = some y := by
  induction l with
  | nil => cases hmem
  | cons e rest ih =>
    rw [List.pairwise_cons] at hsort
    obtain ⟨k, v⟩ := e
    rcases List.mem_cons.mp hmem with heq | hmem'
    · obtain ⟨rfl, rfl⟩ : p = k ∧ y = v :=
        ⟨congrArg Prod.fst heq, congrArg Prod.snd heq⟩
      simp [List.lookup]
    · have hk : k < p := hsort.1 (p, y) hmem'
      have hbeq : (p == k) = false := by
        rw [beq_eq_false_iff_ne]
        omega
      simp only [List.lookup, hbeq]
      exact ih hsort.2 hmem'

/-- The property claim C3 asserts: scrolling to page `p` yields the scroll
fraction `offset p / total_height`, and the viewport tracker evaluated at
the resulting scroll position reports `p`. -/
def ScrollRoundTripSpec (render : Nat → Option Img) (N p canvasH : Nat) : Prop :=
  ∃ f, scrollToPageFraction (layoutPass render N).pagePositions
        (layoutPass render N).totalHeight canvasH p = some f ∧
    pageAtViewport (layoutPass render N).pagePositions
      (yviewAfterMoveto f ((canvasH : ℚ) / ((layoutPass render N).totalHeight : ℚ))).1
      (yviewAfterMoveto f ((canvasH : ℚ) / ((layoutPass render N).totalHeight : ℚ))).2
      ((layoutPass render N).totalHeight : ℚ) = p

/-- Claim C3: for every page `p` that rendered successfully with height
exceeding the viewport height, scrolling to `p` (fraction
`offset p / total_height`) and immediately evaluating the viewport tracker
at the resulting scroll position reports `p` as the active page. -/
theorem C3_scroll_roundtrip (render : Nat → Option Img) (N p canvasH : Nat)
    (img : Img) (hp : p < N) (hr : render p = some img)
    (hh : canvasH < img.height) (hc : 0 < canvasH) :
    ScrollRoundTripSpec render N p canvasH := by
  have hmem : (p, offsetOf render p) ∈ (layoutPass render N).pagePositions :=
    (mem_pagePositions render N p _).mpr ⟨hp, by simp [hr], rfl⟩
  have hpair := pagePositions_pairwise render N
  have hkeys : (layoutPass render N).pagePositions.Pairwise
      (fun a b => a.1 < b.1) := hpair.imp fun h => h.1
  have hlook : (layoutPass render N).pagePositions.lookup p
      = some (offsetOf render p) := lookup_eq_of_mem hkeys hmem
  have hne : (layoutPass render N).pagePositions ≠ [] :=
    List.ne_nil_of_mem hmem
  have hTH : (layoutPass render N).totalHeight = offsetOf render N := by
    rw [layoutPass_totalHeight, if_neg hne]
  have hbound : offsetOf render p + img.height + 30 ≤ offsetOf render N :=
    offsetOf_add_le render hp img hr
  have hguard : canvasH < (layoutPass render N).totalHeight := by
    rw [hTH]
    omega
  have hTHposN : 0 < (layoutPass render N).totalHeight := by omega
  have hTHpos : (0 : ℚ) < ((layoutPass render N).totalHeight : ℚ) := by
    exact_mod_cast hTHposN
  have hTHne : ((layoutPass render N).totalHeight : ℚ) ≠ 0 := ne_of_gt hTHpos
  refine ⟨(offsetOf render p : ℚ) / ((layoutPass render N).totalHeight : ℚ),
    ?_, ?_⟩
  · rw [scrollToPageFraction.eq_def, hlook]
    dsimp only
    rw [if_pos ⟨hguard, hc⟩]
  · have hsum : offsetOf render p + canvasH ≤ (layoutPass render N).totalHeight := by
      rw [hTH]
      omega
    have hfle : (offsetOf render p : ℚ) / ((layoutPass render N).totalHeight : ℚ)
        ≤ 1 - (canvasH : ℚ) / ((layoutPass render N).totalHeight : ℚ) := by
      rw [div_le_iff₀ hTHpos, sub_mul, one_mul, div_mul_cancel₀ _ hTHne]
      have : (offsetOf render p : ℚ) + (canvasH : ℚ)
          ≤ ((layoutPass render N).totalHeight : ℚ) := by exact_mod_cast hsum
      linarith
    have hfnn : (0 : ℚ) ≤ (offsetOf render p : ℚ)
        / ((layoutPass render N).totalHeight : ℚ) :=
      div_nonneg (by positivity) (le_of_lt hTHpos)
    have htop : (yviewAfterMoveto
        ((offsetOf render p : ℚ) / ((layoutPass render N).totalHeight : ℚ))
        ((canvasH : ℚ) / ((layoutPass render N).totalHeight : ℚ))).1
        = (offsetOf render p : ℚ) / ((layoutPass render N).totalHeight : ℚ) := by
      rw [yviewAfterMoveto]
      dsimp only
      rw [min_eq_left hfle, max_eq_right hfnn]
    have hbot : (yviewAfterMoveto
        ((offsetOf render p : ℚ) / ((layoutPass render N).totalHeight : ℚ))
        ((canvasH : ℚ) / ((layoutPass render N).totalHeight : ℚ))).2
        = (offsetOf render p : ℚ) / ((layoutPass render N).totalHeight : ℚ)
          + (canvasH : ℚ) / ((layoutPass render N).totalHeight : ℚ) := by
      rw [yviewAfterMoveto]
      dsimp only
      rw [min_eq_left hfle, max_eq_right hfnn]
    rw [htop, hbot, pageAtViewport]
    have hcenter : viewCenter
        ((offsetOf render p : ℚ) / ((layoutPass render N).totalHeight : ℚ))
        ((offsetOf render p : ℚ) / ((layoutPass render N).totalHeight : ℚ)
          + (canvasH : ℚ) / ((layoutPass render N).totalHeight : ℚ))
        ((layoutPass render N).totalHeight : ℚ)
        = (offsetOf render p : ℚ) + (canvasH : ℚ) / 2 := by
      rw [viewCenter]
      field_simp
      ring
    rw [hcenter]
    rcases indicatorLoop_spec ((offsetOf render p : ℚ) + (canvasH : ℚ) / 2)
        (layoutPass render N).pagePositions 0 hpair with
      ⟨hnone, -⟩ | ⟨e, he, hec, hval, hmax⟩
    · exfalso
      refine hnone (p, offsetOf render p) hmem ?_
      have : (0 : ℚ) ≤ (canvasH : ℚ) / 2 := by positivity
      dsimp only
      linarith
    · rw [hval]
      have hple : p ≤ e.1 := by
        refine hmax (p, offsetOf render p) hmem ?_
        have : (0 : ℚ) ≤ (canvasH : ℚ) / 2 := by positivity
        dsimp only
        linarith
      have heple : e.1 ≤ p := by
        by_contra hgt
        push_neg at hgt
        obtain ⟨q, y⟩ := e
        obtain ⟨-, hsq, rfl⟩ := (mem_pagePositions render N q y).mp he
        obtain ⟨imgq, hrq⟩ := Option.isSome_iff_exists.mp hsq
        have hq : offsetOf render p + img.height + 30 ≤ offsetOf render q :=
          offsetOf_add_le render hgt img hr
        have hcast : (offsetOf render p : ℚ) + (img.height : ℚ) + 30
            ≤ (offsetOf render q : ℚ) := by exact_mod_cast hq
        have hcH : (canvasH : ℚ) < (img.height : ℚ) := by exact_mod_cast hh
        have hcH2 : (canvasH : ℚ) / 2 ≤ (canvasH : ℚ) := by
          have : (0 : ℚ) ≤ (canvasH : ℚ) := by positivity
          linarith
        dsimp only at hec
        linarith
      omega

/-- Witness for C3 at a concrete one-page layout whose single page is
200 px tall, viewed through a 100 px viewport. -/
theorem C3_scroll_roundtrip_witness :
    ((0 : Nat) < 1 ∧ (fun _ : Nat => some (⟨100, 200⟩ : Img)) 0 = some ⟨100, 200⟩ ∧
      100 < (⟨100, 200⟩ : Img).height ∧ (0 : Nat) < 100) ∧
    ScrollRoundTripSpec (fun _ => some ⟨100, 200⟩) 1 0 100 :=
  ⟨⟨by decide, by decide, by decide, by decide⟩,
    C3_scroll_roundtrip (fun _ => some ⟨100, 200⟩) 1 0 100 ⟨100, 200⟩
      (by decide) (by decide) (by decide) (by decide)⟩

/-- A first document for exercising the link index: one page carrying one
external link. -/
def docA : PdfDoc :=
  ⟨1, fun _ => [⟨"uri", "http://a.example", 0, (0, 0, 1, 1)⟩], fun _ => ""⟩

/-- A second document, also one page, carrying no links at all. -/
def docB : PdfDoc := ⟨1, fun _ => [], fun _ => ""⟩

/-- Claim C7 evaluated at the failing input: load `docA` (one page, one
external link) and run a layout pass's link extraction, then load the
different document `docB` (one page, no links) and run its link
extraction. Because `load_pdf` clears every other per-document cache but
never clears `self.links_on_page`, the link index afterwards still holds
the entry derived from `docA` — contradicting the claim that after a
document change the index no longer contains entries from the previous
document. -/
theorem C7_stale_link_index :
    (extractAllLinks (load_pdf_links
        (extractAllLinks (load_pdf_links ⟨none, 0, []⟩ docA)) docB)).linksOnPage
      = [(0, [PageLink.external "http://a.example" (0, 0, 1, 1)])] := by
  rfl

end Dox2
